import Mathlib

/-!
Verification development for the hermes-data-service job-scraper core.

The TypeScript sources under src/services/jobs/scraper (utils.ts, index.ts,
custom-scraper.ts, authenticated-scraper.ts, simple-scraper.ts) are shallowly
embedded below.  JavaScript strings that may be `undefined` are modelled as
`Option String`; JS truthiness of a string is "non-empty"; `setTimeout`-based
sleeps are recorded in an explicit trace; `Math.random` results are passed as
explicit parameters; the Playwright page is modelled as an oracle giving the
DOM state (visible job cards / visible job counts) at each step of the
pagination loop.
-/

/-! ### JavaScript string primitives -/

/-- JS `String.prototype.trim` on the character list: strip whitespace from
both ends. -/
def jsTrimList (l : List Char) : List Char :=
  ((l.dropWhile Char.isWhitespace).reverse.dropWhile Char.isWhitespace).reverse

/-- JS `s.trim()`. -/
def jsTrim (s : String) : String :=
  ⟨jsTrimList s.data⟩

/-- JS truthiness of a possibly-`undefined` string: `undefined` and the empty
string are falsy, every other string is truthy. -/
def truthy : Option String → Bool
  | none => false
  | some s => s != ""

/-- Helper for `listContainsSub`: does `sub` occur as a contiguous substring
of the haystack?  Models JS `String.prototype.includes`. -/
def listContainsSub (sub : List Char) : List Char → Bool
  | [] => sub.isEmpty
  | c :: t => sub.isPrefixOf (c :: t) || listContainsSub sub t

/-- JS `s.includes(sub)`. -/
def jsIncludes (s sub : String) : Bool :=
  listContainsSub sub.data s.data

/-- Remove the first occurrence of `pat` from a character list.  Models the
JS call `s.replace(pat, "")` (string pattern: only the first occurrence is
replaced, and in the scraper the replacement is always the empty string). -/
def jsReplaceFirstL (pat : List Char) : List Char → List Char
  | [] => []
  | c :: rest =>
    if pat.isPrefixOf (c :: rest) then (c :: rest).drop pat.length
    else c :: jsReplaceFirstL pat rest

/-- JS `s.replace(pat, "")` for a string pattern. -/
def jsReplaceFirst (s pat : String) : String :=
  ⟨jsReplaceFirstL pat.data s.data⟩

/-- JS `s.startsWith(pre)`. -/
def jsStartsWith (s pre : String) : Bool :=
  pre.data.isPrefixOf s.data

/-! #### Trim is idempotent (needed for the sanitizer theorems) -/

theorem dropWhile_idem (p : Char → Bool) (l : List Char) :
    (l.dropWhile p).dropWhile p = l.dropWhile p := by
  induction l with
  | nil => rfl
  | cons c t ih =>
    by_cases h : p c = true
    · rw [List.dropWhile_cons_of_pos h]; exact ih
    · rw [List.dropWhile_cons_of_neg (by simpa using h),
        List.dropWhile_cons_of_neg (by simpa using h)]

theorem dropWhile_append_singleton (p : Char → Bool) (a : Char)
    (ha : p a = false) (l : List Char) :
    (l ++ [a]).dropWhile p = l.dropWhile p ++ [a] := by
  induction l with
  | nil => simp [List.dropWhile_cons_of_neg (by simpa using ha)]
  | cons c t ih =>
    by_cases h : p c = true
    · rw [List.cons_append, List.dropWhile_cons_of_pos h,
        List.dropWhile_cons_of_pos h]; exact ih
    · rw [List.cons_append, List.dropWhile_cons_of_neg (by simpa using h),
        List.dropWhile_cons_of_neg (by simpa using h)]
      simp

theorem dropWhile_length_le (p : Char → Bool) (l : List Char) :
    (l.dropWhile p).length ≤ l.length := by
  induction l with
  | nil => simp
  | cons c t ih =>
    by_cases h : p c = true
    · rw [List.dropWhile_cons_of_pos h]
      exact Nat.le_succ_of_le ih
    · rw [List.dropWhile_cons_of_neg (by simpa using h)]

theorem dropWhile_eq_self_of_head (p : Char → Bool) (a : Char)
    (ha : p a = false) (t : List Char) :
    (a :: t).dropWhile p = a :: t :=
  List.dropWhile_cons_of_neg (by simpa using ha)

/-- If a list has no leading `p`-run, right-trimming it leaves no leading
`p`-run either. -/
theorem dropWhile_reverse_dropWhile (p : Char → Bool) (u : List Char)
    (hu : u.dropWhile p = u) :
    ((u.reverse.dropWhile p).reverse).dropWhile p
      = (u.reverse.dropWhile p).reverse := by
  cases u with
  | nil => rfl
  | cons a t =>
    have ha : p a = false := by
      by_contra hcon
      have ha' : p a = true := by
        cases h : p a
        · exact absurd h hcon
        · rfl
      rw [List.dropWhile_cons_of_pos ha'] at hu
      have hlen := congrArg List.length hu
      have hle := dropWhile_length_le p t
      simp at hlen
      omega
    rw [List.reverse_cons, dropWhile_append_singleton p a ha,
      List.reverse_append]
    exact dropWhile_eq_self_of_head p a ha _

theorem jsTrimList_idem (l : List Char) :
    jsTrimList (jsTrimList l) = jsTrimList l := by
  unfold jsTrimList
  set p := Char.isWhitespace with hp
  set u := l.dropWhile p with hu
  have h1 : u.dropWhile p = u := dropWhile_idem p l
  set m := (u.reverse.dropWhile p).reverse with hm
  have h2 : m.dropWhile p = m := dropWhile_reverse_dropWhile p u h1
  rw [h2]
  have h3 : m.reverse = u.reverse.dropWhile p := by
    rw [hm, List.reverse_reverse]
  rw [h3, dropWhile_idem p u.reverse, ← h3]
  exact List.reverse_reverse m

theorem jsTrim_idem (s : String) : jsTrim (jsTrim s) = jsTrim s := by
  show (⟨jsTrimList (jsTrimList s.data)⟩ : String) = ⟨jsTrimList s.data⟩
  rw [jsTrimList_idem]

/-! ### utils.ts -/

/-- Record shape handled by `isValidJobData` / `sanitizeJobData` (utils.ts).
The TS functions take `any`; fields that may be absent on the JS object are
`Option String` here.  `id` doubles as the dedup key. -/
structure JobData where
  id : Option String
  title : Option String
  company : Option String
  companyLink : Option String
  companyImgLink : Option String
  location : Option String
  date : Option String
  link : Option String
  applyLink : Option String
  description : Option String
  salary : Option String
  jobType : Option String
  experienceLevel : Option String
deriving DecidableEq

/-- JS `x?.trim() || "N/A"`. -/
def jsTrimOrNA : Option String → String
  | none => "N/A"
  | some s => if jsTrim s = "" then "N/A" else jsTrim s

/-- JS `x || "N/A"`. -/
def jsOrNA : Option String → String
  | none => "N/A"
  | some s => if s = "" then "N/A" else s

/-- utils.ts `isValidJobData`: `job && job.title && job.company && job.id &&
job.title.trim() !== "" && job.company.trim() !== ""`.  Note that `id` is
only checked for truthiness, never trimmed. -/
def isValidJobData (job : JobData) : Bool :=
  truthy job.title && truthy job.company && truthy job.id
    && (jsTrim (job.title.getD "") != "")
    && (jsTrim (job.company.getD "") != "")

/-- utils.ts `sanitizeJobData`: spread the record, then default every listed
string field; `title/company/location/date/description/salary/jobType/
experienceLevel` are trimmed first, `link/companyLink/companyImgLink/
applyLink` are not; `id` is carried through the spread untouched. -/
def sanitizeJobData (job : JobData) : JobData :=
  { job with
    title := some (jsTrimOrNA job.title)
    company := some (jsTrimOrNA job.company)
    location := some (jsTrimOrNA job.location)
    date := some (jsTrimOrNA job.date)
    link := some (jsOrNA job.link)
    companyLink := some (jsOrNA job.companyLink)
    companyImgLink := some (jsOrNA job.companyImgLink)
    applyLink := some (jsOrNA job.applyLink)
    description := some (jsTrimOrNA job.description)
    salary := some (jsTrimOrNA job.salary)
    jobType := some (jsTrimOrNA job.jobType)
    experienceLevel := some (jsTrimOrNA job.experienceLevel) }

/-- utils.ts `calculateRetryDelay`, with the `Math.random()` draw passed as
an explicit parameter `r` (JS guarantees `0 ≤ r < 1`).  Delays are exact
rationals here; the float computation is exact on this range. -/
def calculateRetryDelay (attempt : Nat) (r : ℚ) : ℚ :=
  let baseDelay : ℚ := 1000
  let maxDelay : ℚ := 30000
  let delay := min (baseDelay * 2 ^ attempt) maxDelay
  let jitter := r * 1000
  delay + jitter

/-! #### Sanitizer lemmas -/

theorem jsTrimOrNA_ne_empty (o : Option String) : jsTrimOrNA o ≠ "" := by
  cases o with
  | none => simp [jsTrimOrNA]
  | some s =>
    by_cases h : jsTrim s = "" <;> simp [jsTrimOrNA, h]

theorem jsOrNA_ne_empty (o : Option String) : jsOrNA o ≠ "" := by
  cases o with
  | none => simp [jsOrNA]
  | some s =>
    by_cases h : s = "" <;> simp [jsOrNA, h]

/-- The sanitized value of a trimmed field is stable under `jsTrim`. -/
theorem jsTrim_jsTrimOrNA (o : Option String) :
    jsTrim (jsTrimOrNA o) = jsTrimOrNA o := by
  cases o with
  | none => rfl
  | some s =>
    by_cases h : jsTrim s = ""
    · simp [jsTrimOrNA, h]; rfl
    · simp [jsTrimOrNA, h]; exact jsTrim_idem s

theorem jsTrimOrNA_stable (o : Option String) :
    jsTrimOrNA (some (jsTrimOrNA o)) = jsTrimOrNA o := by
  have h1 := jsTrim_jsTrimOrNA o
  have h2 := jsTrimOrNA_ne_empty o
  show (if jsTrim (jsTrimOrNA o) = "" then ("N/A") else jsTrim (jsTrimOrNA o))
      = jsTrimOrNA o
  rw [h1, if_neg h2]

theorem jsOrNA_stable (o : Option String) :
    jsOrNA (some (jsOrNA o)) = jsOrNA o := by
  have h2 := jsOrNA_ne_empty o
  show (if jsOrNA o = "" then ("N/A") else jsOrNA o) = jsOrNA o
  rw [if_neg h2]

/-- C9.  Normalization to the canonical record shape is idempotent: for every
input record `j`, `sanitizeJobData (sanitizeJobData j) = sanitizeJobData j`.
Re-normalizing an already-canonical record yields the same record. -/
theorem sanitizeJobData_idempotent (j : JobData) :
    sanitizeJobData (sanitizeJobData j) = sanitizeJobData j := by
  simp only [sanitizeJobData, jsTrimOrNA_stable, jsOrNA_stable]

/-- C4.  For every attempt index `k ≥ 0` and every jitter draw `r` with
`0 ≤ r < 1`, `calculateRetryDelay k r` lies in the closed-open interval
from `min (1000 * 2 ^ k) 30000` to `min (1000 * 2 ^ k) 30000 + 1000`
milliseconds, and in particular never exceeds 31000 ms. -/
theorem calculateRetryDelay_bounds (k : Nat) (r : ℚ)
    (h0 : 0 ≤ r) (h1 : r < 1) :
    min ((1000 : ℚ) * 2 ^ k) 30000 ≤ calculateRetryDelay k r
      ∧ calculateRetryDelay k r < min ((1000 : ℚ) * 2 ^ k) 30000 + 1000
      ∧ calculateRetryDelay k r ≤ 31000 := by
  have hcap : min ((1000 : ℚ) * 2 ^ k) 30000 ≤ 30000 := min_le_right _ _
  unfold calculateRetryDelay
  simp only
  constructor
  · nlinarith
  · constructor
    · nlinarith
    · nlinarith

/-- Witness for C4 at `k = 3`, `r = 1/2`. -/
theorem calculateRetryDelay_bounds_witness :
    (0 : ℚ) ≤ 1 / 2 ∧ (1 : ℚ) / 2 < 1
      ∧ (min ((1000 : ℚ) * 2 ^ 3) 30000 ≤ calculateRetryDelay 3 (1 / 2)
        ∧ calculateRetryDelay 3 (1 / 2)
            < min ((1000 : ℚ) * 2 ^ 3) 30000 + 1000
        ∧ calculateRetryDelay 3 (1 / 2) ≤ 31000) :=
  ⟨by norm_num, by norm_num,
    calculateRetryDelay_bounds 3 (1 / 2) (by norm_num) (by norm_num)⟩

/-! ### Error classification (utils.ts) and the retry orchestrator
(enhanced-scraper.ts, `EnhancedLinkedInScraper.scrapeJobsWithRetry`) -/

/-- A JS `Error` as inspected by the classifier: its `message` and `name`. -/
structure JsError where
  message : String
  name : String
deriving DecidableEq

/-- utils.ts `isRateLimited`. -/
def isRateLimited (e : JsError) : Bool :=
  jsIncludes e.message ("429")
    || jsIncludes e.message ("rate limit")
    || jsIncludes e.message ("too many requests")

/-- The retryable-error disjunction returned by utils.ts `shouldRetry` after
its budget check (factored out for reuse; the list is verbatim from the
source). -/
def retryableSignature (e : JsError) : Bool :=
  isRateLimited e
    || jsIncludes e.message ("timeout")
    || jsIncludes e.message ("network")
    || jsIncludes e.message ("502")
    || jsIncludes e.message ("503")
    || jsIncludes e.message ("Target page")
    || jsIncludes e.message ("browser")
    || jsIncludes e.message ("context has been closed")
    || jsIncludes e.message ("TargetClosedError")
    || jsIncludes e.message ("Protocol error")
    || jsIncludes e.message ("Connection closed")
    || (e.name == "TargetClosedError")
    || (e.name == "ProtocolError")

/-- utils.ts `shouldRetry`: `if (attempt >= maxRetries) return false;` then
the retryable-signature disjunction. -/
def shouldRetry (e : JsError) (attempt maxRetries : Nat) : Bool :=
  if maxRetries ≤ attempt then false else retryableSignature e

/-- The `setTimeout` sleeps performed by `scrapeJobsWithRetry`, recorded in
order: the fixed 2s cooldown before re-initialization, the 5-10s randomized
rate-limit wait, and the exponential backoff (tagged with the attempt index
passed to `calculateRetryDelay`). -/
inductive SleepEvent where
  | reinitCooldown : SleepEvent
  | rateLimitWait : SleepEvent
  | backoff : Nat → SleepEvent
deriving DecidableEq

/-- Outcome of one `scrapeJobsWithRetry` invocation: a returned record list,
a rethrown underlying error (`throw error`), or the terminal
`new Error("Failed to scrape jobs after N attempts")` after the while loop,
tagged with the attempt count N it names. -/
inductive RetryResult where
  | success : List JobData → RetryResult
  | raised : JsError → RetryResult
  | exhausted : Nat → RetryResult
deriving DecidableEq

/-- enhanced-scraper.ts line 322: `jobs.filter(isValidJobData).map(sanitizeJobData)`. -/
def validatedJobs (jobs : List JobData) : List JobData :=
  (jobs.filter isValidJobData).map sanitizeJobData

/-- The `while (attempt <= maxRetries)` loop of `scrapeJobsWithRetry`.
`session k` is the outcome of `this.scraper.scrapeJobs(params)` on attempt
`k`.  The loop body only increments `attempt` under a true `shouldRetry`
(which requires `attempt < maxRetries`), so the extra `fuel` argument —
kept structural so the definition evaluates by kernel reduction — never
runs out when started at `maxRetries + 1`; both exits translate the
post-loop terminal throw.  Returns (outcome, sleep trace, attempts made). -/
def retryLoop (session : Nat → Except JsError (List JobData)) (maxRetries : Nat) :
    Nat → Nat → List SleepEvent → Nat → RetryResult × List SleepEvent × Nat
  | 0, _, trace, tries => (RetryResult.exhausted (maxRetries + 1), trace, tries)
  | fuel + 1, attempt, trace, tries =>
    if attempt ≤ maxRetries then
      let trace1 := if 0 < attempt then trace ++ [SleepEvent.reinitCooldown] else trace
      match session attempt with
      | Except.ok jobs =>
          (RetryResult.success (validatedJobs jobs), trace1, tries + 1)
      | Except.error e =>
        let trace2 :=
          if isRateLimited e then trace1 ++ [SleepEvent.rateLimitWait] else trace1
        if shouldRetry e attempt maxRetries then
          let trace3 :=
            if attempt + 1 ≤ maxRetries then trace2 ++ [SleepEvent.backoff (attempt + 1)]
            else trace2
          retryLoop session maxRetries fuel (attempt + 1) trace3 (tries + 1)
        else (RetryResult.raised e, trace2, tries + 1)
    else (RetryResult.exhausted (maxRetries + 1), trace, tries)

/-- enhanced-scraper.ts `scrapeJobsWithRetry`, starting at attempt 0 with an
empty sleep trace. -/
def scrapeJobsWithRetry (session : Nat → Except JsError (List JobData))
    (maxRetries : Nat) : RetryResult × List SleepEvent × Nat :=
  retryLoop session maxRetries (maxRetries + 1) 0 [] 0

/-- C1 counterexample.  With `maxRetries = 2` and every attempt failing with
a retryable "timeout" error, the orchestrator rethrows the last underlying
error rather than raising the terminal error naming the attempt count 3:
`shouldRetry` already returns false at `attempt = maxRetries`, so the
post-loop `new Error("Failed to scrape jobs after 3 attempts")` is never
reached. -/
theorem scrapeJobsWithRetry_terminal_error_refuted :
    (scrapeJobsWithRetry (fun _ => Except.error ⟨"timeout", ""⟩) 2).1
        = RetryResult.raised ⟨"timeout", ""⟩
      ∧ (scrapeJobsWithRetry (fun _ => Except.error ⟨"timeout", ""⟩) 2).1
        ≠ RetryResult.exhausted 3 := by
  decide

theorem retryLoop_all_retryable
    (session : Nat → Except JsError (List JobData)) (maxRetries : Nat)
    (errs : Nat → JsError)
    (hf : ∀ k, k ≤ maxRetries → session k = Except.error (errs k))
    (hr : ∀ k, k ≤ maxRetries → retryableSignature (errs k) = true) :
    ∀ fuel attempt trace tries, attempt ≤ maxRetries →
      attempt + fuel = maxRetries + 1 →
      (retryLoop session maxRetries fuel attempt trace tries).1
          = RetryResult.raised (errs maxRetries)
        ∧ (retryLoop session maxRetries fuel attempt trace tries).2.2
          = tries + fuel := by
  intro fuel
  induction fuel with
  | zero => intro attempt trace tries hle hsum; omega
  | succ f ih =>
    intro attempt trace tries hle hsum
    rw [retryLoop]
    rw [if_pos hle, hf attempt hle]
    by_cases hlast : maxRetries ≤ attempt
    · have heq : attempt = maxRetries := Nat.le_antisymm hle hlast
      have hsr : shouldRetry (errs attempt) attempt maxRetries = false := by
        unfold shouldRetry
        rw [if_pos hlast]
      subst heq
      have hf0 : f = 0 := by omega
      subst hf0
      simp [hsr]
    · have hsr : shouldRetry (errs attempt) attempt maxRetries = true := by
        unfold shouldRetry
        rw [if_neg hlast]
        exact hr attempt hle
      simp only [hsr, if_true]
      refine ⟨(ih (attempt + 1) _ (tries + 1) (by omega) (by omega)).1, ?_⟩
      rw [(ih (attempt + 1) _ (tries + 1) (by omega) (by omega)).2]
      omega

/-- C1 (amended).  For every SearchRequest session and every retry budget,
if all `maxRetries + 1` attempts fail with retryable errors, the orchestrator
performs exactly `maxRetries + 1` attempts and then rethrows the last
attempt's underlying error; the terminal error naming the attempt count is
unreachable on this path. -/
theorem scrapeJobsWithRetry_exhaustion_raises_last_error
    (session : Nat → Except JsError (List JobData)) (maxRetries : Nat)
    (errs : Nat → JsError)
    (hf : ∀ k, k ≤ maxRetries → session k = Except.error (errs k))
    (hr : ∀ k, k ≤ maxRetries → retryableSignature (errs k) = true) :
    (scrapeJobsWithRetry session maxRetries).1
        = RetryResult.raised (errs maxRetries)
      ∧ (scrapeJobsWithRetry session maxRetries).2.2 = maxRetries + 1 := by
  have h := retryLoop_all_retryable session maxRetries errs hf hr
    (maxRetries + 1) 0 [] 0 (Nat.zero_le _) (by omega)
  unfold scrapeJobsWithRetry
  exact ⟨h.1, by rw [h.2]; omega⟩

/-- Witness for C1's amended theorem at `maxRetries = 1` with a constant
"timeout" failure. -/
theorem scrapeJobsWithRetry_exhaustion_witness :
    (scrapeJobsWithRetry (fun _ => Except.error ⟨"timeout", ""⟩) 1).1
        = RetryResult.raised ⟨"timeout", ""⟩
      ∧ (scrapeJobsWithRetry (fun _ => Except.error ⟨"timeout", ""⟩) 1).2.2
        = 1 + 1 :=
  scrapeJobsWithRetry_exhaustion_raises_last_error
    (fun _ => Except.error ⟨"timeout", ""⟩) 1 (fun _ => ⟨"timeout", ""⟩)
    (fun _ _ => rfl) (fun _ _ => rfl)

/-- C5.  If the scrape fails on attempt 0 with a non-retryable error — one
matching neither the rate-limit signatures nor the timeout/network/502/503/
session-closed signatures — the orchestrator rethrows that error right after
attempt 0: exactly one attempt is made and the sleep trace is empty (no
backoff, no rate-limit wait, no reinit cooldown). -/
theorem scrapeJobsWithRetry_nonretryable_immediate
    (session : Nat → Except JsError (List JobData)) (maxRetries : Nat)
    (e : JsError)
    (h0 : session 0 = Except.error e)
    (hnr : retryableSignature e = false) :
    scrapeJobsWithRetry session maxRetries = (RetryResult.raised e, [], 1) := by
  have hrl : isRateLimited e = false := by
    unfold retryableSignature at hnr
    simp only [Bool.or_eq_false_iff] at hnr
    exact hnr.1.1.1.1.1.1.1.1.1.1.1.1
  have hsr : shouldRetry e 0 maxRetries = false := by
    unfold shouldRetry
    by_cases h : maxRetries ≤ 0
    · rw [if_pos h]
    · rw [if_neg h]
      exact hnr
  unfold scrapeJobsWithRetry
  rw [retryLoop, if_pos (Nat.zero_le maxRetries), h0]
  simp [hrl, hsr]

/-- Witness for C5 at a concrete non-retryable error and `maxRetries = 3`. -/
theorem scrapeJobsWithRetry_nonretryable_witness :
    retryableSignature ⟨"boom", ""⟩ = false
      ∧ scrapeJobsWithRetry (fun _ => Except.error ⟨"boom", ""⟩) 3
        = (RetryResult.raised ⟨"boom", ""⟩, [], 1) :=
  ⟨by decide,
    scrapeJobsWithRetry_nonretryable_immediate
      (fun _ => Except.error ⟨"boom", ""⟩) 3 ⟨"boom", ""⟩ rfl (by decide)⟩

/-! ### Top-level fallback (index.ts `runJobScraper`) and the batch
coordinator (enhanced-scraper.ts `batchScrapeJobs`) -/

/-- simple-scraper.ts `SimpleJobData`: all fields definite strings. -/
structure SimpleJobData where
  id : String
  title : String
  company : String
  location : String
  date : String
  link : String
deriving DecidableEq

/-- The legacy record shape produced by index.ts `runJobScraper`. -/
structure LegacyJob where
  location : Option String
  id : Option String
  title : Option String
  company : String
  companyLink : String
  companyImgLink : String
  place : Option String
  date : Option String
  link : Option String
  applyLink : String
deriving DecidableEq

/-- index.ts lines 42-53: transform an enhanced-scraper record to the legacy
format (`job.company || "N/A"` etc.). -/
def toLegacy (job : JobData) : LegacyJob :=
  { location := job.location
    id := job.id
    title := job.title
    company := jsOrNA job.company
    companyLink := jsOrNA job.companyLink
    companyImgLink := jsOrNA job.companyImgLink
    place := job.location
    date := job.date
    link := job.link
    applyLink := jsOrNA job.applyLink }

/-- index.ts lines 75-86: transform a simple-scraper record to the legacy
format (companyLink / companyImgLink / applyLink hard-coded to "N/A"). -/
def simpleToLegacy (job : SimpleJobData) : LegacyJob :=
  { location := some job.location
    id := some job.id
    title := some job.title
    company := if job.company = "" then ("N/A") else job.company
    companyLink := "N/A"
    companyImgLink := "N/A"
    place := some job.location
    date := some job.date
    link := some job.link
    applyLink := "N/A" }

/-- index.ts `runJobScraper`: run the enhanced scraper; on any error run the
simple-scraper fallback once; if the fallback also fails, rethrow the
ORIGINAL error (`throw error` in the inner catch).  `primary` is the outcome
of `scraper.scrapeJobsWithRetry`, `fallback` the outcome of the fallback
block (`createSimpleScraper` + `scrapeJobs`).  The second component counts
fallback attempts. -/
def runJobScraper (primary : Except JsError (List JobData))
    (fallback : Except JsError (List SimpleJobData)) :
    Except JsError (List LegacyJob) × Nat :=
  match primary with
  | Except.ok jobs => (Except.ok (jobs.map toLegacy), 0)
  | Except.error e =>
    match fallback with
    | Except.ok simpleJobs => (Except.ok (simpleJobs.map simpleToLegacy), 1)
    | Except.error _ => (Except.error e, 1)

/-- C6.  If the primary session-based path raises `e`, the simple-scraper
fallback is attempted exactly once (and never when the primary succeeds), and
if the fallback also fails — with any error `f` — `runJobScraper` raises the
original error `e`, not `f`. -/
theorem runJobScraper_fallback_once_original_error
    (e : JsError) (fallback : Except JsError (List SimpleJobData)) :
    (runJobScraper (Except.error e) fallback).2 = 1
      ∧ (∀ jobs, (runJobScraper (Except.ok jobs) fallback).2 = 0)
      ∧ (∀ f, (runJobScraper (Except.error e) (Except.error f)).1
          = Except.error e) := by
  refine ⟨?_, fun jobs => rfl, fun f => rfl⟩
  cases fallback with
  | ok simpleJobs => rfl
  | error f => rfl

/-- enhanced-scraper.ts `batchScrapeJobs`: iterate the requests, appending
each successful `scrapeJobsWithRetry` result to the accumulator; a caught
per-request error just logs and continues.  `outcomes` is the per-request
outcome list, in request order. -/
def batchScrapeJobs (outcomes : List (Except JsError (List JobData))) :
    List JobData :=
  outcomes.foldl
    (fun allJobs outcome =>
      match outcome with
      | Except.ok jobs => allJobs ++ jobs
      | Except.error _ => allJobs)
    []

theorem batchScrapeJobs_foldl_acc
    (outcomes : List (Except JsError (List JobData))) (acc : List JobData) :
    outcomes.foldl
        (fun allJobs outcome =>
          match outcome with
          | Except.ok jobs => allJobs ++ jobs
          | Except.error _ => allJobs)
        acc
      = acc ++ (outcomes.filterMap Except.toOption).flatten := by
  induction outcomes generalizing acc with
  | nil => simp
  | cons o rest ih =>
    cases o with
    | ok jobs =>
      simp only [List.foldl_cons, List.filterMap_cons, Except.toOption,
        List.flatten_cons, ih, List.append_assoc]
    | error f =>
      simp only [List.foldl_cons, List.filterMap_cons, Except.toOption, ih]

/-- C7.  For every per-request outcome list, `batchScrapeJobs` returns
exactly the concatenation of the successful requests' record lists, in
request order; failing requests neither abort the batch (the function is
total) nor drop other requests' results. -/
theorem batchScrapeJobs_concat_successes
    (outcomes : List (Except JsError (List JobData))) :
    batchScrapeJobs outcomes = (outcomes.filterMap Except.toOption).flatten := by
  unfold batchScrapeJobs
  rw [batchScrapeJobs_foldl_acc]
  simp

/-! ### custom-scraper.ts: extraction and pagination
(`CustomLinkedInScraper.scrapeJobs`, `extractJobsFromPage`, `loadMoreJobs`) -/

/-- A job card element of the results page: the attribute/selector reads
performed by `extractJobsFromPage` (custom-scraper.ts lines 1134-1182).
`none` models an absent element or attribute. -/
structure Card where
  entityUrn : Option String
  titleText : Option String
  companyText : Option String
  companyHref : Option String
  imgSrc : Option String
  locationText : Option String
  dateText : Option String
  linkHref : Option String
deriving DecidableEq

/-- JS `x?.textContent?.trim() || ""`. -/
def jsTrimOrEmpty : Option String → String
  | none => ""
  | some s => jsTrim s

/-- The card's record id:
`(el.getAttribute("data-entity-urn") || "").replace("urn:li:jobPosting:", "") || ""`
(factored out of the extraction loop for reuse in the proofs). -/
def cardId (el : Card) : String :=
  jsReplaceFirst (el.entityUrn.getD ("")) ("urn:li:jobPosting:")

/-- The `JobData` object built from one card (custom-scraper.ts lines
1162-1182); `applyLink/description/salary/jobType/experienceLevel` are
hard-coded empty. -/
def cardJob (el : Card) : JobData :=
  { id := some (cardId el)
    title := some (jsTrimOrEmpty el.titleText)
    company := some (jsTrimOrEmpty el.companyText)
    companyLink := some (el.companyHref.getD (""))
    companyImgLink := some (el.imgSrc.getD (""))
    location := some (jsTrimOrEmpty el.locationText)
    date := some (jsTrimOrEmpty el.dateText)
    link := some (if jsStartsWith (el.linkHref.getD ("")) ("http")
      then el.linkHref.getD ("")
      else "https://www.linkedin.com" ++ el.linkHref.getD (""))
    applyLink := some ("")
    description := some ("")
    salary := some ("")
    jobType := some ("")
    experienceLevel := some ("") }

/-- The `els.forEach` body of `extractJobsFromPage`: skip cards with an
empty or already-seen id, record the id in `seenIds` BEFORE the title check
(as the source does), and push the card's record only when its title is
truthy.  The per-card try/catch only swallows DOM parse errors and is not
modelled. -/
def extractJobsFromPageGo : List Card → List String → List JobData
  | [], _ => []
  | el :: rest, seenIds =>
    if cardId el = "" ∨ cardId el ∈ seenIds then
      extractJobsFromPageGo rest seenIds
    else if jsTrimOrEmpty el.titleText ≠ "" then
      cardJob el :: extractJobsFromPageGo rest (cardId el :: seenIds)
    else
      extractJobsFromPageGo rest (cardId el :: seenIds)

/-- custom-scraper.ts `extractJobsFromPage`: one extraction pass over the
currently visible cards, with a FRESH `seenIds` set per pass. -/
def extractJobsFromPage (cards : List Card) : List JobData :=
  extractJobsFromPageGo cards []

/-- Every record produced by one extraction pass has an id outside `seenIds`,
and the ids of one pass are pairwise distinct. -/
theorem extractGo_fresh_nodup (cards : List Card) :
    ∀ seenIds : List String,
      (∀ j ∈ extractJobsFromPageGo cards seenIds,
        ∃ i, j.id = some i ∧ i ∉ seenIds)
        ∧ ((extractJobsFromPageGo cards seenIds).map JobData.id).Nodup := by
  induction cards with
  | nil =>
    intro seen
    refine ⟨?_, ?_⟩ <;> simp [extractJobsFromPageGo]
  | cons el rest ih =>
    intro seen
    by_cases hskip : cardId el = "" ∨ cardId el ∈ seen
    · rw [extractJobsFromPageGo, if_pos hskip]
      exact ih seen
    · push_neg at hskip
      obtain ⟨hne, hnotin⟩ := hskip
      rw [extractJobsFromPageGo, if_neg (by push_neg; exact ⟨hne, hnotin⟩)]
      obtain ⟨ihf, ihn⟩ := ih (cardId el :: seen)
      by_cases htitle : jsTrimOrEmpty el.titleText ≠ ""
      · rw [if_pos htitle]
        constructor
        · intro j hj
          rcases List.mem_cons.1 hj with hj | hj
          · exact ⟨cardId el, by rw [hj]; rfl, hnotin⟩
          · obtain ⟨i, hi, hni⟩ := ihf j hj
            exact ⟨i, hi, fun hmem => hni (List.mem_cons_of_mem _ hmem)⟩
        · rw [List.map_cons, List.nodup_cons]
          refine ⟨?_, ihn⟩
          intro hmem
          rw [List.mem_map] at hmem
          obtain ⟨j, hj, hjid⟩ := hmem
          obtain ⟨i, hi, hni⟩ := ihf j hj
          rw [hi] at hjid
          have : i = cardId el := by
            have := hjid
            simp [cardJob] at this
            exact this
          exact hni (this ▸ List.mem_cons_self i seen)
      · rw [if_neg htitle]
        constructor
        · intro j hj
          obtain ⟨i, hi, hni⟩ := ihf j hj
          exact ⟨i, hi, fun hmem => hni (List.mem_cons_of_mem _ hmem)⟩
        · exact ihn

/-- JS `params.limit || 100` (custom-scraper.ts line 963). -/
def jsLimitOr100 : Option Nat → Nat
  | none => 100
  | some n => if n = 0 then 100 else n

/-- The pagination loop of custom-scraper.ts `scrapeJobs` (lines 962-1039).
`doms t` is the card list visible in the DOM at extraction pass `t` (the
pass index equals the loop's `scrollAttempts` counter) and `more t` is the
result of the `loadMoreJobs` call made after pass `t`.  The hard ceiling
`maxScrollAttempts = 20` is enforced through the structural `fuel`
argument, which starts at 20 and counts down as `scrollAttempts` counts up,
so the fuel-0 exit coincides with the `scrollAttempts < 20` exit of the
while loop.  Returns the accumulated records (before the final slice) and
the number of extraction passes performed.  Error paths are not modelled: a
non-crash inner error merely breaks the loop early and a crash error
rethrows, so neither adds records. -/
def scrapeLoop (doms : Nat → List Card) (more : Nat → Bool)
    (targetLimit : Nat) :
    Nat → Nat → List JobData → Nat → List JobData × Nat
  | 0, _, jobs, passes => (jobs, passes)
  | fuel + 1, scrollAttempts, jobs, passes =>
    if jobs.length < targetLimit ∧ scrollAttempts < 20 then
      if targetLimit ≤ (jobs ++ extractJobsFromPage (doms scrollAttempts)).length
      then (jobs ++ extractJobsFromPage (doms scrollAttempts), passes + 1)
      else if more scrollAttempts then
        scrapeLoop doms more targetLimit fuel (scrollAttempts + 1)
          (jobs ++ extractJobsFromPage (doms scrollAttempts)) (passes + 1)
      else (jobs ++ extractJobsFromPage (doms scrollAttempts), passes + 1)
    else (jobs, passes)

/-- custom-scraper.ts `scrapeJobs` (happy path): run the pagination loop
from `scrollAttempts = 0` with target `params.limit || 100`, then
`jobs.slice(0, targetLimit)`.  Second component: extraction passes made. -/
def scrapeJobs (doms : Nat → List Card) (more : Nat → Bool)
    (limit : Option Nat) : List JobData × Nat :=
  let targetLimit := jsLimitOr100 limit
  let r := scrapeLoop doms more targetLimit 20 0 [] 0
  (r.1.take targetLimit, r.2)

/-- C2 counterexample.  A card with id 1 is visible on pass 0; on pass 1 the
DOM has grown by a second card while still showing the first, as infinite
scroll does.  With `limit = 2` the run returns the id-1 record TWICE: each
extraction pass starts a fresh `seenIds` set and `jobs.push(...newJobs)`
never deduplicates across passes, so the returned list violates the claimed
id-uniqueness (while respecting the length bound). -/
theorem scrapeJobs_duplicate_ids_counterexample :
    ((scrapeJobs
          (fun t => if t = 0
            then [⟨some ("urn:li:jobPosting:1"), some ("Engineer"),
              some ("Acme"), none, none, none, none, none⟩]
            else [⟨some ("urn:li:jobPosting:1"), some ("Engineer"),
              some ("Acme"), none, none, none, none, none⟩,
              ⟨some ("urn:li:jobPosting:2"), some ("Dev"),
              some ("Initech"), none, none, none, none, none⟩])
          (fun _ => true) (some 2)).1.map JobData.id)
        = [some ("1"), some ("1")]
      ∧ ¬ (((scrapeJobs
          (fun t => if t = 0
            then [⟨some ("urn:li:jobPosting:1"), some ("Engineer"),
              some ("Acme"), none, none, none, none, none⟩]
            else [⟨some ("urn:li:jobPosting:1"), some ("Engineer"),
              some ("Acme"), none, none, none, none, none⟩,
              ⟨some ("urn:li:jobPosting:2"), some ("Dev"),
              some ("Initech"), none, none, none, none, none⟩])
          (fun _ => true) (some 2)).1.map JobData.id).Nodup) := by
  decide

/-- C2 (amended).  For every page evolution and every requested
`limit = N ≥ 1`, `scrapeJobs` returns at most `N` records (a `limit` of 0
falls back to the default 100), and within any SINGLE extraction pass no
two extracted records share an id; across different scroll passes of the
same run, however, ids may repeat, since the accumulator never
deduplicates between passes (see the counterexample). -/
theorem scrapeJobs_limit_and_per_pass_dedup
    (doms : Nat → List Card) (more : Nat → Bool) (n t : Nat)
    (hn : 1 ≤ n) :
    (scrapeJobs doms more (some n)).1.length ≤ n
      ∧ ((extractJobsFromPage (doms t)).map JobData.id).Nodup := by
  constructor
  · have hl : jsLimitOr100 (some n) = n := by
      show (if n = 0 then 100 else n) = n
      rw [if_neg (by omega)]
    simp only [scrapeJobs, hl]
    exact List.length_take_le n _
  · exact (extractGo_fresh_nodup (doms t) []).2

/-- Witness for C2's amended theorem: an empty page and `limit = 5`. -/
theorem scrapeJobs_limit_witness :
    1 ≤ 5
      ∧ ((scrapeJobs (fun _ => []) (fun _ => false) (some 5)).1.length ≤ 5
        ∧ ((extractJobsFromPage ([] : List Card)).map JobData.id).Nodup) :=
  ⟨by decide,
    scrapeJobs_limit_and_per_pass_dedup (fun _ => []) (fun _ => false) 5 0
      (by decide)⟩

/-- custom-scraper.ts `loadMoreJobs` (lines 1192-1248): read the current
visible-record count, then scroll up to 5 times; `counts i` is the visible
count observed after the i-th scroll (0-based).  Returns (result, scrolls
performed): `true` as soon as a count exceeds the starting count, `false`
on the fifth unsuccessful comparison (`i === scrollAttempts - 1`).  The
fuel-0 branch translates the post-loop `return newJobCount >
currentJobCount` at line 1243, which is unreachable from the entry point
below.  The catch-all that turns a Playwright error into `false` is not
modelled. -/
def loadMoreLoop (counts : Nat → Nat) (current : Nat) :
    Nat → Nat → Nat → Bool × Nat
  | 0, _, prevNew => (decide (current < prevNew), 5)
  | fuel + 1, i, _ =>
    if current < counts i then (true, i + 1)
    else if i = 4 then (false, i + 1)
    else loadMoreLoop counts current fuel (i + 1) (counts i)

/-- custom-scraper.ts `loadMoreJobs`, entered with `scrollAttempts = 5`
scrolls of budget and `newJobCount` initialized to the current count. -/
def loadMoreJobs (counts : Nat → Nat) (current : Nat) : Bool × Nat :=
  loadMoreLoop counts current 5 0 current

theorem loadMoreLoop_no_growth (counts : Nat → Nat) (current : Nat)
    (hng : ∀ i, i < 5 → counts i ≤ current) :
    ∀ fuel i prev, i + fuel = 5 → i < 5 →
      loadMoreLoop counts current fuel i prev = (false, 5) := by
  intro fuel
  induction fuel with
  | zero => intro i prev hsum hlt; omega
  | succ f ihf =>
    intro i prev hsum hlt
    rw [loadMoreLoop]
    rw [if_neg (Nat.not_lt.2 (hng i hlt))]
    by_cases h4 : i = 4
    · rw [if_pos h4, h4]
    · rw [if_neg h4]
      exact ihf (i + 1) (counts i) (by omega) (by omega)

/-- C3.  If the visible record count never grows across a full scroll pass
(the first before/after comparison already observes no growth, as in the
counts-[5,5] scenario), `loadMoreJobs` concludes end-of-results: it returns
`false` after this one full scroll attempt (its complete 5-scroll pass),
and the pagination loop of `scrapeJobs` therefore stops after exactly one
extraction pass — not after the full 20-iteration ceiling. -/
theorem loadMoreJobs_no_growth_ends_after_one_pass
    (counts : Nat → Nat) (current : Nat) (doms : Nat → List Card)
    (more : Nat → Bool) (target : Nat)
    (hng : ∀ i, i < 5 → counts i ≤ current)
    (hm : more 0 = (loadMoreJobs counts current).1)
    (hpos : 0 < target)
    (hsmall : (extractJobsFromPage (doms 0)).length < target) :
    (loadMoreJobs counts current).1 = false
      ∧ (loadMoreJobs counts current).2 = 5
      ∧ (scrapeJobs doms more (some target)).2 = 1 := by
  have hlm : loadMoreJobs counts current = (false, 5) :=
    loadMoreLoop_no_growth counts current hng 5 0 current (by omega)
      (by omega)
  refine ⟨by rw [hlm], by rw [hlm], ?_⟩
  have hmf : more 0 = false := by rw [hm, hlm]
  have htl : jsLimitOr100 (some target) = target := by
    show (if target = 0 then 100 else target) = target
    rw [if_neg (by omega)]
  simp only [scrapeJobs, htl]
  rw [(by norm_num : (20 : Nat) = 19 + 1), scrapeLoop]
  rw [if_pos (show ([] : List JobData).length < target ∧ 0 < 20 from
    ⟨by simpa using hpos, by omega⟩)]
  rw [if_neg (show
    ¬ target ≤ (([] : List JobData) ++ extractJobsFromPage (doms 0)).length
    from by simpa using Nat.not_le.2 hsmall)]
  rw [hmf]
  simp

/-! ### The orchestrator's validation pipeline (C8) -/

theorem truthy_some_iff (s : String) : truthy (some s) = true ↔ s ≠ "" := by
  simp [truthy]

theorem isValid_truthy_id (j : JobData) (h : isValidJobData j = true) :
    truthy j.id = true := by
  simp only [isValidJobData, Bool.and_eq_true] at h
  exact h.1.1.2

theorem isValid_sanitize (j : JobData) (hid : truthy j.id = true) :
    isValidJobData (sanitizeJobData j) = true := by
  unfold isValidJobData
  simp only [Bool.and_eq_true]
  refine ⟨⟨⟨⟨?_, ?_⟩, ?_⟩, ?_⟩, ?_⟩
  · exact (truthy_some_iff _).2 (jsTrimOrNA_ne_empty j.title)
  · exact (truthy_some_iff _).2 (jsTrimOrNA_ne_empty j.company)
  · exact hid
  · show (jsTrim ((some (jsTrimOrNA j.title)).getD ("")) != "") = true
    simp only [Option.getD_some]
    rw [jsTrim_jsTrimOrNA]
    simp [bne_iff_ne, jsTrimOrNA_ne_empty j.title]
  · show (jsTrim ((some (jsTrimOrNA j.company)).getD ("")) != "") = true
    simp only [Option.getD_some]
    rw [jsTrim_jsTrimOrNA]
    simp [bne_iff_ne, jsTrimOrNA_ne_empty j.company]

/-- C8 counterexample.  The record with `id = " "` (a single space), a
truthy title and a truthy company passes `isValidJobData` — validation only
checks `job.id` for truthiness, never `job.id.trim()` — and
`sanitizeJobData` carries the id through untouched, so the orchestrator's
output contains a record whose id is empty after trimming, contradicting
the claim. -/
theorem validatedJobs_id_trim_counterexample :
    ((validatedJobs [⟨some (" "), some ("x"), some ("y"), none, none, none,
        none, none, none, none, none, none, none⟩]).map JobData.id)
      = [some (" ")]
    ∧ jsTrim (" ") = "" := by
  decide

/-- C8 (amended).  Every record in the orchestrator's output — the result
of filtering with `isValidJobData` and mapping `sanitizeJobData` — passes
validation: its title and company are non-empty after trimming and its id
is non-empty, though the id may still be whitespace-only (validation checks
only id truthiness); and every listed string field of every output record
is non-empty, missing or blank fields having been defaulted to "N/A". -/
theorem validatedJobs_all_valid_nonempty
    (jobs : List JobData) (j : JobData) (hj : j ∈ validatedJobs jobs) :
    isValidJobData j = true
      ∧ truthy j.id = true
      ∧ ([j.title, j.company, j.location, j.date, j.link, j.companyLink,
          j.companyImgLink, j.applyLink, j.description, j.salary, j.jobType,
          j.experienceLevel].all truthy) = true := by
  unfold validatedJobs at hj
  rw [List.mem_map] at hj
  obtain ⟨j', hj', rfl⟩ := hj
  rw [List.mem_filter] at hj'
  obtain ⟨-, hvalid⟩ := hj'
  have hid : truthy j'.id = true := isValid_truthy_id j' hvalid
  refine ⟨isValid_sanitize j' hid, hid, ?_⟩
  show ([some (jsTrimOrNA j'.title), some (jsTrimOrNA j'.company),
      some (jsTrimOrNA j'.location), some (jsTrimOrNA j'.date),
      some (jsOrNA j'.link), some (jsOrNA j'.companyLink),
      some (jsOrNA j'.companyImgLink), some (jsOrNA j'.applyLink),
      some (jsTrimOrNA j'.description), some (jsTrimOrNA j'.salary),
      some (jsTrimOrNA j'.jobType),
      some (jsTrimOrNA j'.experienceLevel)].all truthy) = true
  simp [List.all_cons, truthy_some_iff, jsTrimOrNA_ne_empty, jsOrNA_ne_empty]

/-- Witness for C8's amended theorem at a concrete raw record. -/
theorem validatedJobs_all_valid_witness :
    ((⟨some ("id1"), some ("T"), some ("C"), some ("N/A"), some ("N/A"),
        some ("N/A"), some ("N/A"), some ("N/A"), some ("N/A"), some ("N/A"),
        some ("N/A"), some ("N/A"), some ("N/A")⟩ : JobData)
        ∈ validatedJobs [⟨some ("id1"), some ("T"), some ("C"), none, none,
          none, none, none, none, none, none, none, none⟩])
      ∧ (isValidJobData ⟨some ("id1"), some ("T"), some ("C"), some ("N/A"),
          some ("N/A"), some ("N/A"), some ("N/A"), some ("N/A"),
          some ("N/A"), some ("N/A"), some ("N/A"), some ("N/A"),
          some ("N/A")⟩ = true
        ∧ truthy (some ("id1")) = true
        ∧ ([some ("T"), some ("C"), some ("N/A"), some ("N/A"), some ("N/A"),
            some ("N/A"), some ("N/A"), some ("N/A"), some ("N/A"),
            some ("N/A"), some ("N/A"), some ("N/A")].all truthy) = true) :=
  ⟨by decide,
    validatedJobs_all_valid_nonempty
      [⟨some ("id1"), some ("T"), some ("C"), none, none, none, none, none,
        none, none, none, none, none⟩]
      ⟨some ("id1"), some ("T"), some ("C"), some ("N/A"), some ("N/A"),
        some ("N/A"), some ("N/A"), some ("N/A"), some ("N/A"), some ("N/A"),
        some ("N/A"), some ("N/A"), some ("N/A")⟩
      (by decide)⟩

/-! ### authenticated-scraper.ts URL-offset pagination helpers
(`getStartParam`, `withStartParam`) -/

/-- A well-formed absolute URL, represented by its query-parameter list in
order (the only URL component the two helpers read or write).  `new URL` on
a well-formed absolute URL succeeds, and serializing with `toString` and
re-parsing is the identity on this representation, so the
serialize/re-parse round trip through the `page` is implicit. -/
structure URLModel where
  params : List (String × String)
deriving DecidableEq

/-- JS `URLSearchParams.get`: the value of the first entry with the key,
`null` if absent. -/
def spGet : List (String × String) → String → Option String
  | [], _ => none
  | (k', v') :: rest, k => if k' = k then some v' else spGet rest k

/-- JS `URLSearchParams.set`: replace the first entry's value, delete any
later entries with the same key, append if absent. -/
def spSet : List (String × String) → String → String → List (String × String)
  | [], k, v => [(k, v)]
  | (k', v') :: rest, k, v =>
    if k' = k then (k, v) :: rest.filter (fun e => e.1 ≠ k)
    else (k', v') :: spSet rest k v

theorem spGet_spSet (ps : List (String × String)) (k v : String) :
    spGet (spSet ps k v) k = some v := by
  induction ps with
  | nil => simp [spSet, spGet]
  | cons e rest ih =>
    obtain ⟨k', v'⟩ := e
    by_cases h : k' = k
    · rw [spSet, if_pos h, spGet, if_pos rfl]
    · rw [spSet, if_neg h, spGet, if_neg h]
      exact ih

/-- Little-endian base-10 digits of `n`; the structural fuel (`n` itself
suffices) keeps the definition kernel-evaluable. -/
def natToRevDigitsAux : Nat → Nat → List Nat
  | 0, _ => []
  | fuel + 1, n => if n = 0 then [] else n % 10 :: natToRevDigitsAux fuel (n / 10)

def natToRevDigits (n : Nat) : List Nat :=
  natToRevDigitsAux n n

/-- Numeric value of little-endian digits. -/
def ofRevDigits : List Nat → Nat
  | [] => 0
  | d :: rest => d + 10 * ofRevDigits rest

def natDigitChar : Nat → Char
  | 0 => '0'
  | 1 => '1'
  | 2 => '2'
  | 3 => '3'
  | 4 => '4'
  | 5 => '5'
  | 6 => '6'
  | 7 => '7'
  | 8 => '8'
  | _ => '9'

/-- JS `String(n)` for a non-negative number: its decimal numeral. -/
def jsNatRepr (n : Nat) : String :=
  if n = 0 then "0" else ⟨(natToRevDigits n).reverse.map natDigitChar⟩

/-- Numeric value of a big-endian digit-character list, as accumulated by a
left-to-right parse. -/
def digitsToNat (cs : List Char) : Nat :=
  cs.foldl (fun a c => a * 10 + (c.toNat - 48)) 0

/-- Parse a leading run of decimal digits; `none` when there is none (the
NaN case of `parseInt`). -/
def parseNatDigits (l : List Char) : Option Nat :=
  if (l.takeWhile Char.isDigit).isEmpty then none
  else some (digitsToNat (l.takeWhile Char.isDigit))

/-- JS `parseInt(s, 10)` to the extent the scraper exercises it: skip
leading whitespace, accept an optional sign, then parse a leading digit
run; `none` models NaN (so the `Number.isFinite` guard of `getStartParam`
maps to `Option.isSome`). -/
def jsParseInt (s : String) : Option Int :=
  match s.data.dropWhile Char.isWhitespace with
  | [] => none
  | c :: rest =>
    if c = '-' then (parseNatDigits rest).map (fun m => -(m : Int))
    else if c = '+' then (parseNatDigits rest).map (fun m => (m : Int))
    else (parseNatDigits (c :: rest)).map (fun m => (m : Int))

/-- authenticated-scraper.ts `getStartParam`: read `?start=` and parse it,
returning `null` when absent or NaN. -/
def getStartParam (u : URLModel) : Option Int :=
  match spGet u.params ("start") with
  | none => none
  | some s => jsParseInt s

/-- authenticated-scraper.ts `withStartParam`: set `start` to
`String(Math.max(0, startVal))`. -/
def withStartParam (u : URLModel) (startVal : Int) : URLModel :=
  ⟨spSet u.params ("start") (jsNatRepr (max 0 startVal).toNat)⟩

theorem natToRevDigitsAux_lt_ten :
    ∀ fuel n d, d ∈ natToRevDigitsAux fuel n → d < 10 := by
  intro fuel
  induction fuel with
  | zero => intro n d hd; simp [natToRevDigitsAux] at hd
  | succ f ih =>
    intro n d hd
    rw [natToRevDigitsAux] at hd
    by_cases h : n = 0
    · rw [if_pos h] at hd
      simp at hd
    · rw [if_neg h] at hd
      rcases List.mem_cons.1 hd with hd | hd
      · rw [hd]; exact Nat.mod_lt n (by norm_num)
      · exact ih (n / 10) d hd

theorem ofRevDigits_natToRevDigitsAux :
    ∀ fuel n, n ≤ fuel → ofRevDigits (natToRevDigitsAux fuel n) = n := by
  intro fuel
  induction fuel with
  | zero =>
    intro n h
    have : n = 0 := Nat.le_zero.1 h
    rw [this]
    rfl
  | succ f ih =>
    intro n h
    rw [natToRevDigitsAux]
    by_cases h0 : n = 0
    · rw [if_pos h0, h0]
      rfl
    · rw [if_neg h0, ofRevDigits]
      have hdiv : n / 10 ≤ f := by
        have h1 : n / 10 < n := Nat.div_lt_self (Nat.pos_of_ne_zero h0)
          (by norm_num)
        omega
      rw [ih (n / 10) hdiv]
      exact Nat.mod_add_div n 10

theorem natDigitChar_facts :
    ∀ d, d < 10 →
      (natDigitChar d).isDigit = true
        ∧ (natDigitChar d).isWhitespace = false
        ∧ (natDigitChar d).toNat - 48 = d
        ∧ natDigitChar d ≠ '-'
        ∧ natDigitChar d ≠ '+' := by
  decide

theorem takeWhile_eq_self_of_all (p : Char → Bool) :
    ∀ l : List Char, (∀ c ∈ l, p c = true) → l.takeWhile p = l := by
  intro l
  induction l with
  | nil => intro _; rfl
  | cons c t ih =>
    intro hall
    rw [List.takeWhile_cons, if_pos (hall c (List.mem_cons_self c t))]
    rw [ih (fun x hx => hall x (List.mem_cons_of_mem c hx))]

theorem foldl_digit_chars (l : List Nat) :
    ∀ a, (∀ d ∈ l, d < 10) →
      (l.map natDigitChar).foldl (fun acc c => acc * 10 + (c.toNat - 48)) a
        = l.foldl (fun acc d => acc * 10 + d) a := by
  induction l with
  | nil => intro a _; rfl
  | cons d t ih =>
    intro a hall
    rw [List.map_cons, List.foldl_cons, List.foldl_cons,
      (natDigitChar_facts d (hall d (List.mem_cons_self d t))).2.2.1]
    exact ih _ (fun x hx => hall x (List.mem_cons_of_mem d hx))

theorem foldl_reverse_ofRevDigits (ds : List Nat) :
    ds.reverse.foldl (fun a d => a * 10 + d) 0 = ofRevDigits ds := by
  rw [List.foldl_reverse]
  induction ds with
  | nil => rfl
  | cons d t ih =>
    rw [List.foldr_cons, ih, ofRevDigits]
    ring

/-- Printing a non-negative number with `String(n)` and reading it back with
`parseInt(s, 10)` yields the number. -/
theorem jsParseInt_jsNatRepr (n : Nat) : jsParseInt (jsNatRepr n) = some (n : Int) := by
  by_cases h0 : n = 0
  · rw [h0]
    decide
  · have hne : natToRevDigits n ≠ [] := by
      unfold natToRevDigits
      obtain ⟨f, rfl⟩ := Nat.exists_eq_succ_of_ne_zero h0
      rw [natToRevDigitsAux, if_neg h0]
      simp
    have hall10 : ∀ d ∈ (natToRevDigits n).reverse, d < 10 := by
      intro d hd
      exact natToRevDigitsAux_lt_ten n n d (List.mem_reverse.1 hd)
    have hrepr : (jsNatRepr n).data
        = (natToRevDigits n).reverse.map natDigitChar := by
      unfold jsNatRepr
      rw [if_neg h0]
    have hallchar : ∀ c ∈ (jsNatRepr n).data,
        ∃ d, d < 10 ∧ c = natDigitChar d := by
      intro c hc
      rw [hrepr, List.mem_map] at hc
      obtain ⟨d, hd, rfl⟩ := hc
      exact ⟨d, hall10 d hd, rfl⟩
    obtain ⟨c, t, hct⟩ : ∃ c t, (jsNatRepr n).data = c :: t := by
      rw [hrepr]
      rcases hl : (natToRevDigits n).reverse.map natDigitChar with _ | ⟨c, t⟩
      · exfalso
        apply hne
        have := congrArg List.length hl
        simp at this
        exact this
      · exact ⟨c, t, rfl⟩
    obtain ⟨d, hd10, hcd⟩ := hallchar c (by rw [hct]; exact List.mem_cons_self c t)
    have hcfacts := natDigitChar_facts d hd10
    have hdw : (jsNatRepr n).data.dropWhile Char.isWhitespace = c :: t := by
      rw [hct]
      exact dropWhile_eq_self_of_head Char.isWhitespace c
        (by rw [hcd]; exact hcfacts.2.1) t
    unfold jsParseInt
    rw [hdw]
    show (if c = '-' then (parseNatDigits t).map (fun m => -(m : Int))
      else if c = '+' then (parseNatDigits t).map (fun m => (m : Int))
      else (parseNatDigits (c :: t)).map (fun m => (m : Int))) = some (n : Int)
    rw [if_neg (by rw [hcd]; exact hcfacts.2.2.2.1),
      if_neg (by rw [hcd]; exact hcfacts.2.2.2.2)]
    have halldig : ∀ x ∈ c :: t, Char.isDigit x = true := by
      intro x hx
      obtain ⟨dx, hdx10, rfl⟩ := hallchar x (by rw [hct]; exact hx)
      exact (natDigitChar_facts dx hdx10).1
    have htake : (c :: t).takeWhile Char.isDigit = c :: t :=
      takeWhile_eq_self_of_all Char.isDigit (c :: t) halldig
    unfold parseNatDigits
    rw [htake, if_neg (by simp)]
    have hval : digitsToNat (c :: t) = n := by
      have hct' : c :: t = (natToRevDigits n).reverse.map natDigitChar := by
        rw [← hct, hrepr]
      rw [hct']
      unfold digitsToNat
      rw [foldl_digit_chars _ 0 hall10, foldl_reverse_ofRevDigits]
      exact ofRevDigits_natToRevDigitsAux n n (Nat.le_refl n)
    rw [hval]
    rfl

/-- C10.  The URL-offset pagination helpers round-trip: for every
well-formed absolute URL `u` and every integer `n`,
`getStartParam (withStartParam u n)` is `max 0 n` — so it equals `n` for
`n ≥ 0` and equals 0 for `n < 0`, since `withStartParam` clamps the start
value at 0.  Each URL-offset step therefore lands on a URL whose parsed
start offset is exactly the value it wrote. -/
theorem getStartParam_withStartParam (u : URLModel) (n : Int) :
    getStartParam (withStartParam u n) = some (max 0 n)
      ∧ (0 ≤ n → getStartParam (withStartParam u n) = some n)
      ∧ (n < 0 → getStartParam (withStartParam u n) = some 0) := by
  have hmain : getStartParam (withStartParam u n) = some (max 0 n) := by
    unfold getStartParam withStartParam
    rw [spGet_spSet]
    show jsParseInt (jsNatRepr (max 0 n).toNat) = some (max 0 n)
    rw [jsParseInt_jsNatRepr]
    congr 1
    exact Int.toNat_of_nonneg (le_max_left 0 n)
  refine ⟨hmain, fun h => ?_, fun h => ?_⟩
  · rw [hmain]
    congr 1
    exact max_eq_right h
  · rw [hmain]
    congr 1
    exact max_eq_left (le_of_lt h)

/-- Witness for C10 at a concrete URL, with `n = 7` and `n = -3`. -/
theorem getStartParam_withStartParam_witness :
    getStartParam (withStartParam ⟨[("location", "Austin")]⟩ 7) = some 7
      ∧ getStartParam (withStartParam ⟨[("location", "Austin")]⟩ (-3))
        = some 0 :=
  ⟨(getStartParam_withStartParam ⟨[("location", "Austin")]⟩ 7).2.1
      (by decide),
    (getStartParam_withStartParam ⟨[("location", "Austin")]⟩ (-3)).2.2
      (by decide)⟩

/-- Witness for C3: counts frozen at 5 (the counts-[5,5] scenario), an empty
first page and `limit = 10`. -/
theorem loadMoreJobs_no_growth_witness :
    (loadMoreJobs (fun _ => 5) 5).1 = false
      ∧ (loadMoreJobs (fun _ => 5) 5).2 = 5
      ∧ (scrapeJobs (fun _ => []) (fun _ => false) (some 10)).2 = 1 :=
  loadMoreJobs_no_growth_ends_after_one_pass (fun _ => 5) 5 (fun _ => [])
    (fun _ => false) 10 (fun _ _ => Nat.le_refl 5) (by decide) (by decide)
    (by decide)
